import Mathlib

/-!
Verification of the nacl_interp bootstrap shim (src/nacl_interp.c).

Shallow embedding conventions:
* C strings are modelled as `List Char` (the terminating NUL is implicit in
  the end of the list; list elements are assumed to be non-NUL characters).
* Machine words (pointers, auxv values) are modelled as `Nat`; the null
  pointer is the word 0.
* The C `int` type is modelled as `Int`; where signed overflow matters the
  two's-complement wrap at 32 bits is made explicit (`wrap32`).
* Fallible operations return `Option`; `none` marks undefined behaviour
  (an out-of-bounds read) that the C source would perform on that input.
-/

namespace NaClInterp

/-! ## String primitives (nacl_interp.c lines 52-81) -/

/-- Embedding of environ_match (lines 52-64): walks name and envstring in
lockstep; returns the value part when envstring is exactly name ++ "=" ++ value,
and none otherwise (also when envstring equals name with no equals sign). -/
def environ_match : List Char → List Char → Option (List Char)
  | [], [] => none
  | [], b :: bs => if b = '=' then some bs else none
  | _ :: _, [] => none
  | a :: as, b :: bs => if a = b then environ_match as bs else none

/-- Embedding of my_getenv (lines 66-74): scan the environment vector for the
first entry matching the given name. -/
def my_getenv (name : List Char) : List (List Char) → Option (List Char)
  | [] => none
  | e :: ep =>
    match environ_match name e with
    | some m => some m
    | none => my_getenv name ep

/-- Embedding of my_strlen (lines 76-81). -/
def my_strlen : List Char → Nat
  | [] => 0
  | _ :: s => my_strlen s + 1

/-- The environment variable name consulted by the shim (line 50). -/
def ENVAR : List Char := "NACL_INTERP_LOADER".toList

/-! ## Integer-to-decimal rendering (nacl_interp.c lines 88-103) -/

/-- Two's-complement wrap of an integer into the signed 32-bit range,
used to model the overflow of C signed-int negation. -/
def wrap32 (x : Int) : Int := (x + 2 ^ 31) % 2 ^ 32 - 2 ^ 31

/-- Embedding of the do-while digit loop of iov_int_string (lines 94-98).
Each iteration emits the character at index value tmod 10 of the string
literal of digits (C remainder truncates toward zero) and divides the value
by 10 (C division truncates toward zero), stopping when the quotient is 0.
An index outside the ten-character literal is an out-of-bounds read: none. -/
def int_digits (value : Int) : Option (List Char) :=
  if 0 ≤ value.tmod 10 ∧ value.tmod 10 < 10 then
    let c := Char.ofNat (48 + (value.tmod 10).toNat)
    if value.tdiv 10 = 0 then some [c]
    else
      match int_digits (value.tdiv 10) with
      | none => none
      | some rest => some (rest ++ [c])
  else none
termination_by value.natAbs
decreasing_by
  rename_i hz
  have h10 : (value.tdiv 10).natAbs = value.natAbs / 10 := Int.natAbs_tdiv value 10
  have hne : value.natAbs ≠ 0 := by
    intro h0
    have : value = 0 := Int.natAbs_eq_zero.mp h0
    simp [this] at hz
  omega

/-- Embedding of iov_int_string (lines 88-103): records the sign, negates a
negative value (with two's-complement wrap, since the C negation of INT_MIN
overflows), renders the digits, and prepends a minus sign when negative. -/
def iov_int_string (value : Int) : Option (List Char) :=
  let negative := value < 0
  let v := if negative then wrap32 (-value) else value
  (int_digits v).map (fun ds => if negative then '-' :: ds else ds)

/-! ## Observable events

The shim interacts with the kernel through raw system calls.  A run of the
embedded do_start is recorded as the list of externally observable events it
produces, in program order. -/

/-- Observable actions of the shim: the readlink probe of /proc/self/exe, the
environment lookup, the process-replacing execve, the diagnostic writev and
the terminating exit_group. -/
inductive Event where
  | readlink (path : List Char) (bufsize : Nat)
  | getenv (name : List Char)
  | execve (path : List Char) (args : List (Option (List Char))) (env : List (List Char))
  | writev (fd : Nat) (data : List Char)
  | exitGroup (status : Nat)
deriving DecidableEq

/-- Embedding of fail (lines 108-130): builds the iov array
(fixed prefix, message, optional filename, and when item1 is present the
fragments of a colon-separated item token with a rendered decimal value,
then the final newline), issues one writev of that vector to fd 2, and
exits the whole process with status 2.  When item1 is null the number slot
iov[6] stays empty and iov_int_string is never invoked.  The result is none
exactly when the rendering of value1 performs an out-of-bounds read. -/
def fail (message : List Char) (filename : Option (List Char))
    (item1 : Option (List Char)) (value1 : Int) : Option (List Event) :=
  match item1 with
  | none =>
    some [Event.writev 2 ("nacl_interp: ".toList ++ message ++ filename.getD [] ++ ['\n']),
          Event.exitGroup 2]
  | some item =>
    (iov_int_string value1).map fun num =>
      [Event.writev 2 ("nacl_interp: ".toList ++ message ++ filename.getD [] ++
                       ": ".toList ++ item ++ ['='] ++ num ++ ['\n']),
       Event.exitGroup 2]

/-! ## Auxiliary-vector constants and scan (nacl_interp.c lines 158-173) -/

/-- ELF auxiliary-vector end-of-list tag. -/
def AT_NULL : Nat := 0

/-- ELF auxiliary-vector platform-string tag. -/
def AT_PLATFORM : Nat := 15

/-- ELF auxiliary-vector secure-exec tag. -/
def AT_SECURE : Nat := 23

/-- ELF auxiliary-vector originating-file-path tag. -/
def AT_EXECFN : Nat := 31

/-- Limit from linux/limits.h used for the readlink buffer. -/
def PATH_MAX : Nat := 4096

/-- State of the three recognized facts during the auxv scan: the execfn and
platform string pointers (0 models the C null pointer, the initial value at
lines 158-159) and the secure flag (initially true, line 160). -/
structure AuxInfo where
  execfn : Nat
  platform : Nat
  secure : Bool
deriving DecidableEq

/-- One iteration of the auxv scan switch (lines 162-173). -/
def aux_step (info : AuxInfo) (av : Nat × Nat) : AuxInfo :=
  if av.1 = AT_EXECFN then { info with execfn := av.2 }
  else if av.1 = AT_PLATFORM then { info with platform := av.2 }
  else if av.1 = AT_SECURE then { info with secure := av.2 ≠ 0 }
  else info

/-- Embedding of the auxv scan loop (lines 162-173): fold the switch over the
entries, so a later entry for the same tag overwrites an earlier one. -/
def scan_auxv (auxv : List (Nat × Nat)) : AuxInfo :=
  auxv.foldl aux_step { execfn := 0, platform := 0, secure := true }

/-! ## do_start (nacl_interp.c lines 143-222) -/

/-- Input of one run of do_start, already split into the decoded views plus
the behaviour of the outside world: mem dereferences a nonzero string
pointer found in the auxiliary vector; readlinkTarget is the target of the
/proc/self/exe link (none when the readlink call fails); execFailsWith is
none when execve succeeds (and never returns) and carries the errno value
when it fails. -/
structure StartInput where
  argv : List (List Char)
  envp : List (List Char)
  auxv : List (Nat × Nat)
  mem : Nat → List Char
  readlinkTarget : Option (List Char)
  execFailsWith : Option Int

/-- Target architecture selected at compile time (lines 190-200). -/
inductive Arch where
  | x86_64
  | i386
  | arm
  | mips
deriving DecidableEq

/-- Compiled-in default platform string per architecture (lines 190-200). -/
def default_platform : Arch → List Char
  | Arch.x86_64 => "x86_64".toList
  | Arch.i386 => "i386".toList
  | Arch.arm => "arm".toList
  | Arch.mips => "mips".toList

/-- Embedding of lines 175-184: when the execfn pointer from auxv is null,
call readlink on /proc/self/exe with a count of one less than the buffer
size; on success the buffer holds the first min(target length, PATH_MAX)
bytes of the target and the code writes a NUL right after them, so the
resulting string is the target truncated to PATH_MAX characters; on failure
fall back to argv[0] (which is the null pointer when argc is zero). -/
def resolve_execfn (info : AuxInfo) (inp : StartInput) : Option (List Char) :=
  if info.execfn = 0 then
    match inp.readlinkTarget with
    | some t => some (t.take PATH_MAX)
    | none => inp.argv.head?
  else some (inp.mem info.execfn)

/-- Embedding of lines 189-201: a null platform pointer from auxv is replaced
by the compiled-in architecture default. -/
def resolve_platform (arch : Arch) (info : AuxInfo) (inp : StartInput) : List Char :=
  if info.platform = 0 then default_platform arch else inp.mem info.platform

/-- Embedding of the argument-vector construction (lines 212-216):
new_argv[0..2] are the loader, the platform and the resolved executable
name, and the loop for i from 1 to argc copies argv[i] - including, at
i = argc, the null terminator of the original vector (so no terminator is
written when argc is 0, faithful to the loop bounds).  The original argv is
modelled here as its C layout: the strings followed by the null entry. -/
def build_new_argv (loader platform : List Char) (execfn : Option (List Char))
    (argv : List (List Char)) : List (Option (List Char)) :=
  some loader :: some platform :: execfn :: ((argv.map some ++ [none]).drop 1)

/-- Message fragment of the secure-exec refusal (line 187). -/
def secure_fail_msg : List Char := "refusing secure exec of ".toList

/-- Message of the missing-environment-variable failure (lines 209-210). -/
def missing_env_fail_msg : List Char :=
  "environment variable ".toList ++ ENVAR ++
    " must be set to run a NaCl binary directly".toList

/-- Message fragment of the execve failure (line 220). -/
def exec_fail_msg : List Char := "failed to execute ".toList

/-- Embedding of do_start after stack decoding (lines 158-221): scan the
auxiliary vector, resolve the executable name (recording the readlink event
when the fallback probe runs), refuse a secure exec, resolve the platform,
look up the loader environment variable, build the new argument vector and
invoke execve, failing with errno when execve returns. -/
def do_start (arch : Arch) (inp : StartInput) : Option (List Event) :=
  let info := scan_auxv inp.auxv
  let execfn := resolve_execfn info inp
  let evs0 : List Event :=
    if info.execfn = 0 then [Event.readlink ("/proc/self/exe".toList) PATH_MAX] else []
  if info.secure then
    (fail secure_fail_msg execfn none 0).map (fun f => evs0 ++ f)
  else
    let platform := resolve_platform arch info inp
    let evs1 := evs0 ++ [Event.getenv ENVAR]
    match my_getenv ENVAR inp.envp with
    | none => (fail missing_env_fail_msg none none 0).map (fun f => evs1 ++ f)
    | some loader =>
      let evs2 := evs1 ++ [Event.execve loader (build_new_argv loader platform execfn inp.argv) inp.envp]
      match inp.execFailsWith with
      | none => some evs2
      | some e =>
        (fail exec_fail_msg (some loader) (some ("errno".toList)) e).map (fun f => evs2 ++ f)

/-! ## Stack decoding (nacl_interp.c lines 143-156)

The raw initial stack is a list of machine words.  The decoder mirrors the
pointer arithmetic of do_start: word 0 is argc, the next argc words are the
argument pointers, the word after them (the argv terminator) is skipped
without being examined, the following words up to the first zero are the
environment pointers, and the remaining words are read two at a time as
auxiliary-vector entries up to the first entry whose tag is AT_NULL.
Running off the end of the block is an out-of-bounds read: none. -/

/-- Scan a pointer vector up to its first null word (the envp scan of lines
150-152), returning the pointers before the null and the words after it. -/
def scan_ptrs : List Nat → Option (List Nat × List Nat)
  | [] => none
  | p :: rest =>
    if p = 0 then some ([], rest)
    else (scan_ptrs rest).map (fun pr => (p :: pr.1, pr.2))

/-- Scan auxiliary-vector entries (pairs of words) up to the first entry
tagged AT_NULL (the scan of lines 153-156), returning the entries before the
sentinel and the words after the sentinel entry. -/
def scan_auxv_pairs : List Nat → Option (List (Nat × Nat) × List Nat)
  | [] => none
  | [_] => none
  | t :: v :: rest =>
    if t = AT_NULL then some ([], rest)
    else (scan_auxv_pairs rest).map (fun pr => ((t, v) :: pr.1, pr.2))

/-- Embedding of the stack-decoding part of do_start (lines 143-156). -/
def decode_stack (stack : List Nat) :
    Option (Nat × List Nat × List Nat × List (Nat × Nat)) :=
  match stack with
  | [] => none
  | argc :: rest =>
    match scan_ptrs (rest.drop (argc + 1)) with
    | none => none
    | some (env, afterEnv) =>
      match scan_auxv_pairs afterEnv with
      | none => none
      | some (aux, _) => some (argc, rest.take argc, env, aux)

/-- Well-formed initial stack block for given argument pointers, environment
pointers and auxiliary entries, as the kernel lays it out: the count, the
argument pointers, a null, the environment pointers, a null, the entries as
tag/value word pairs, the AT_NULL sentinel entry, then whatever follows. -/
def encode_stack (args env : List Nat) (aux : List (Nat × Nat)) (tail : List Nat) : List Nat :=
  args.length :: (args ++ 0 :: (env ++ 0 :: (aux.flatMap (fun p => [p.1, p.2]) ++ AT_NULL :: 0 :: tail)))

/-! ## Trace inspection helpers -/

/-- Whether an event is the process-replacing execve call. -/
def is_execve_event : Event → Bool
  | Event.execve _ _ _ => true
  | _ => false

/-- Whether a trace invokes process replacement. -/
def has_execve (evs : List Event) : Bool := evs.any is_execve_event

/-- Whether an event is the environment lookup. -/
def is_getenv_event : Event → Bool
  | Event.getenv _ => true
  | _ => false

/-- Whether a trace consults the environment. -/
def has_getenv (evs : List Event) : Bool := evs.any is_getenv_event

/-- The bodies of all diagnostic writes in a trace. -/
def writev_bodies (evs : List Event) : List (List Char) :=
  evs.filterMap (fun e => match e with | Event.writev _ d => some d | _ => none)

/-- Whether some diagnostic write of the trace contains the given marker. -/
def reports (marker : List Char) (evs : List Event) : Bool :=
  (writev_bodies evs).any (fun d => decide (marker <:+: d))

/-! ## Specification-side helpers -/

/-- Last-seen value of a given auxiliary-vector tag (the reference notion of
the claims; the code realises it by folding aux_step left to right). -/
def last_aux_val (tag : Nat) : List (Nat × Nat) → Option Nat
  | [] => none
  | av :: rest =>
    match last_aux_val tag rest with
    | some w => some w
    | none => if av.1 = tag then some av.2 else none

/-! ## Lemmas about the environment lookup -/

/-- The matcher succeeds exactly on entries of the shape name, equals sign,
value. -/
theorem environ_match_some_iff (name e v : List Char) :
    environ_match name e = some v ↔ e = name ++ '=' :: v := by
  induction name generalizing e with
  | nil =>
    cases e with
    | nil => simp [environ_match]
    | cons b bs =>
      by_cases hb : b = '='
      · subst hb
        simp [environ_match]
      · simp [environ_match, hb, Ne.symm hb]
  | cons a as ih =>
    cases e with
    | nil => simp [environ_match]
    | cons b bs =>
      by_cases hab : a = b
      · subst hab
        simp [environ_match, ih]
      · simp [environ_match, hab]
        intro hba hbs
        exact hab hba.symm

/-- The lookup fails exactly when no environment entry has the shape
name, equals sign, value. -/
theorem my_getenv_eq_none_iff (name : List Char) (envp : List (List Char)) :
    my_getenv name envp = none ↔ ∀ e ∈ envp, ∀ v, e ≠ name ++ '=' :: v := by
  induction envp with
  | nil => simp [my_getenv]
  | cons e ep ih =>
    constructor
    · intro h
      cases hm : environ_match name e with
      | some m => simp [my_getenv, hm] at h
      | none =>
        simp only [my_getenv, hm] at h
        intro x hx v
        rcases List.mem_cons.mp hx with hx | hx
        · subst hx
          intro hshape
          exact absurd ((environ_match_some_iff name x v).mpr hshape) (by simp [hm])
        · exact ih.mp h x hx v
    · intro h
      cases hm : environ_match name e with
      | some m =>
        exact absurd ((environ_match_some_iff name e m).mp hm)
          (h e (List.mem_cons_self e ep) m)
      | none =>
        simp only [my_getenv, hm]
        exact ih.mpr (fun x hx v => h x (List.mem_cons_of_mem e hx) v)

/-! ## Lemmas about the auxiliary-vector scan -/

theorem aux_step_execfn (info : AuxInfo) (av : Nat × Nat) :
    (aux_step info av).execfn = if av.1 = AT_EXECFN then av.2 else info.execfn := by
  simp only [aux_step, AT_EXECFN, AT_PLATFORM, AT_SECURE]
  split_ifs <;> simp_all

theorem aux_step_platform (info : AuxInfo) (av : Nat × Nat) :
    (aux_step info av).platform = if av.1 = AT_PLATFORM then av.2 else info.platform := by
  simp only [aux_step, AT_EXECFN, AT_PLATFORM, AT_SECURE]
  split_ifs <;> simp_all

theorem aux_step_secure (info : AuxInfo) (av : Nat × Nat) :
    (aux_step info av).secure = if av.1 = AT_SECURE then decide (av.2 ≠ 0) else info.secure := by
  simp only [aux_step, AT_EXECFN, AT_PLATFORM, AT_SECURE]
  split_ifs <;> simp_all

theorem foldl_aux_step_execfn (l : List (Nat × Nat)) (init : AuxInfo) :
    (List.foldl aux_step init l).execfn = (last_aux_val AT_EXECFN l).getD init.execfn := by
  induction l generalizing init with
  | nil => simp [last_aux_val]
  | cons av rest ih =>
    simp only [List.foldl_cons, last_aux_val, ih, aux_step_execfn]
    cases last_aux_val AT_EXECFN rest with
    | some w => simp
    | none => split_ifs <;> simp

theorem foldl_aux_step_platform (l : List (Nat × Nat)) (init : AuxInfo) :
    (List.foldl aux_step init l).platform = (last_aux_val AT_PLATFORM l).getD init.platform := by
  induction l generalizing init with
  | nil => simp [last_aux_val]
  | cons av rest ih =>
    simp only [List.foldl_cons, last_aux_val, ih, aux_step_platform]
    cases last_aux_val AT_PLATFORM rest with
    | some w => simp
    | none => split_ifs <;> simp

theorem foldl_aux_step_secure (l : List (Nat × Nat)) (init : AuxInfo) :
    (List.foldl aux_step init l).secure =
      (last_aux_val AT_SECURE l).elim init.secure (fun v => decide (v ≠ 0)) := by
  induction l generalizing init with
  | nil => simp [last_aux_val]
  | cons av rest ih =>
    simp only [List.foldl_cons, last_aux_val, ih, aux_step_secure]
    cases last_aux_val AT_SECURE rest with
    | some w => simp
    | none => split_ifs <;> simp

/-- The execfn pointer recorded by the scan is the last-seen AT_EXECFN value,
or null when the tag never occurs. -/
theorem scan_auxv_execfn (l : List (Nat × Nat)) :
    (scan_auxv l).execfn = (last_aux_val AT_EXECFN l).getD 0 :=
  foldl_aux_step_execfn l _

/-- The platform pointer recorded by the scan is the last-seen AT_PLATFORM
value, or null when the tag never occurs. -/
theorem scan_auxv_platform (l : List (Nat × Nat)) :
    (scan_auxv l).platform = (last_aux_val AT_PLATFORM l).getD 0 :=
  foldl_aux_step_platform l _

/-- The secure flag recorded by the scan is true by default and tracks the
last-seen AT_SECURE value being nonzero. -/
theorem scan_auxv_secure (l : List (Nat × Nat)) :
    (scan_auxv l).secure =
      (last_aux_val AT_SECURE l).elim true (fun v => decide (v ≠ 0)) :=
  foldl_aux_step_secure l _

/-! ## Lemmas about the decimal renderer -/

theorem wrap32_eq_self {x : Int} (h1 : -(2 ^ 31) ≤ x) (h2 : x < 2 ^ 31) :
    wrap32 x = x := by
  unfold wrap32
  have : (x + 2 ^ 31) % 2 ^ 32 = x + 2 ^ 31 :=
    Int.emod_eq_of_lt (by omega) (by omega)
  omega

/-- On a nonnegative value the digit loop renders a nonempty string of
decimal digits. -/
theorem int_digits_nonneg (v : Int) (hv : 0 ≤ v) :
    ∃ ds, int_digits v = some ds ∧ ds ≠ [] ∧ ∀ c ∈ ds, c.isDigit = true := by
  have main : ∀ n : Nat, ∀ v : Int, v.natAbs = n → 0 ≤ v →
      ∃ ds, int_digits v = some ds ∧ ds ≠ [] ∧ ∀ c ∈ ds, c.isDigit = true := by
    intro n
    induction n using Nat.strong_induction_on with
    | _ n ih =>
    intro v hn hv
    have hm0 : 0 ≤ v.tmod 10 := Int.tmod_nonneg 10 hv
    have hm10 : v.tmod 10 < 10 := Int.tmod_lt_of_pos v (by norm_num)
    have hdigit : (Char.ofNat (48 + (v.tmod 10).toNat)).isDigit = true := by
      have hlt : (v.tmod 10).toNat < 10 := by omega
      interval_cases h : (v.tmod 10).toNat <;> decide
    rw [int_digits]
    simp only [hm0, hm10, and_self, if_true]
    by_cases hz : v.tdiv 10 = 0
    · refine ⟨[Char.ofNat (48 + (v.tmod 10).toNat)], by simp [hz], by simp, ?_⟩
      intro c hc
      rw [List.mem_singleton.mp hc]
      exact hdigit
    · have hq0 : 0 ≤ v.tdiv 10 := Int.tdiv_nonneg hv (by norm_num)
      have hlt : (v.tdiv 10).natAbs < n := by
        have h10 : (v.tdiv 10).natAbs = v.natAbs / 10 := Int.natAbs_tdiv v 10
        have hne : v.natAbs ≠ 0 := by
          intro h0
          exact hz (by simp [Int.natAbs_eq_zero.mp h0])
        omega
      obtain ⟨rest, hrest, hne2, hall⟩ := ih _ hlt _ rfl hq0
      refine ⟨rest ++ [Char.ofNat (48 + (v.tmod 10).toNat)], ?_, by simp, ?_⟩
      · simp [hz, hrest]
      · intro c hc
        rcases List.mem_append.mp hc with hc | hc
        · exact hall c hc
        · simpa [List.mem_singleton.mp hc] using hdigit
  exact main v.natAbs v rfl hv

/-- For every representable int except the most negative one, the renderer
produces a nonempty string of digits with an optional leading minus sign. -/
theorem iov_int_string_of_gt_min (v : Int) (h : -(2 ^ 31) < v) :
    ∃ num, iov_int_string v = some num ∧ num ≠ [] ∧
      ∀ c ∈ num, c.isDigit = true ∨ c = '-' := by
  unfold iov_int_string
  by_cases hneg : v < 0
  · have hw : wrap32 (-v) = -v := wrap32_eq_self (by omega) (by omega)
    obtain ⟨ds, hds, hne, hall⟩ := int_digits_nonneg (-v) (by omega)
    refine ⟨'-' :: ds, ?_, by simp, ?_⟩
    · simp [hneg, hw, hds]
    · intro c hc
      rcases List.mem_cons.mp hc with hc | hc
      · exact Or.inr hc
      · exact Or.inl (hall c hc)
  · obtain ⟨ds, hds, hne, hall⟩ := int_digits_nonneg v (by omega)
    refine ⟨ds, ?_, hne, fun c hc => Or.inl (hall c hc)⟩
    simp [hneg, hds]

/-- Rendering the minimum 32-bit value: the C negation overflows, the value
stays negative after the two's-complement wrap, and the first digit lookup
indexes the digit literal at -8, an out-of-bounds read. -/
theorem int_digits_min : int_digits (-2147483648) = none := by
  rw [int_digits]
  rw [(by decide : Int.tmod (-2147483648 : Int) 10 = -8)]
  norm_num

theorem iov_int_string_zero : iov_int_string 0 = some ['0'] := by
  have h0 : int_digits 0 = some ['0'] := by
    rw [int_digits]
    norm_num
  simp [iov_int_string, h0]

theorem iov_int_string_42 : iov_int_string 42 = some ['4', '2'] := by
  have h42 : int_digits 42 = some ['4', '2'] := by
    rw [int_digits]
    rw [(by decide : Int.tmod (42 : Int) 10 = 2), (by decide : Int.tdiv (42 : Int) 10 = 4)]
    norm_num
    rw [int_digits]
    rw [(by decide : Int.tmod (4 : Int) 10 = 4), (by decide : Int.tdiv (4 : Int) 10 = 0)]
    norm_num
    exact ⟨by decide, by decide⟩
  simp [iov_int_string, h42]

theorem iov_int_string_min : iov_int_string (-2147483648) = none := by
  simp only [iov_int_string]
  norm_num [(by decide : wrap32 (2147483648 : Int) = -(2 ^ 31)), int_digits_min]

/-! ## Path lemmas for do_start -/

/-- Events that precede the policy decision: the readlink probe, present
exactly when the auxv execfn pointer is null. -/
def probe_events (inp : StartInput) : List Event :=
  if (scan_auxv inp.auxv).execfn = 0
  then [Event.readlink ("/proc/self/exe".toList) PATH_MAX] else []

theorem do_start_secure (arch : Arch) (inp : StartInput)
    (h : (scan_auxv inp.auxv).secure = true) :
    do_start arch inp =
      some (probe_events inp ++
        [Event.writev 2 ("nacl_interp: ".toList ++ secure_fail_msg ++
           (resolve_execfn (scan_auxv inp.auxv) inp).getD [] ++ ['\n']),
         Event.exitGroup 2]) := by
  simp [do_start, probe_events, h, fail]

theorem do_start_missing (arch : Arch) (inp : StartInput)
    (hs : (scan_auxv inp.auxv).secure = false)
    (hm : my_getenv ENVAR inp.envp = none) :
    do_start arch inp =
      some (probe_events inp ++
        [Event.getenv ENVAR,
         Event.writev 2 ("nacl_interp: ".toList ++ missing_env_fail_msg ++ ['\n']),
         Event.exitGroup 2]) := by
  simp [do_start, probe_events, hs, hm, fail]

theorem do_start_exec_success (arch : Arch) (inp : StartInput) (loader : List Char)
    (hs : (scan_auxv inp.auxv).secure = false)
    (hm : my_getenv ENVAR inp.envp = some loader)
    (he : inp.execFailsWith = none) :
    do_start arch inp =
      some (probe_events inp ++
        [Event.getenv ENVAR,
         Event.execve loader
           (build_new_argv loader (resolve_platform arch (scan_auxv inp.auxv) inp)
             (resolve_execfn (scan_auxv inp.auxv) inp) inp.argv)
           inp.envp]) := by
  simp [do_start, probe_events, hs, hm, he, fail]

theorem do_start_exec_fail (arch : Arch) (inp : StartInput) (loader : List Char)
    (e : Int) (num : List Char)
    (hs : (scan_auxv inp.auxv).secure = false)
    (hm : my_getenv ENVAR inp.envp = some loader)
    (he : inp.execFailsWith = some e)
    (hn : iov_int_string e = some num) :
    do_start arch inp =
      some (probe_events inp ++
        [Event.getenv ENVAR,
         Event.execve loader
           (build_new_argv loader (resolve_platform arch (scan_auxv inp.auxv) inp)
             (resolve_execfn (scan_auxv inp.auxv) inp) inp.argv)
           inp.envp,
         Event.writev 2 ("nacl_interp: ".toList ++ exec_fail_msg ++ loader ++
           ": ".toList ++ "errno".toList ++ ['='] ++ num ++ ['\n']),
         Event.exitGroup 2]) := by
  simp [do_start, probe_events, hs, hm, he, fail, hn]

/-! ## Trace helper lemmas -/

theorem has_execve_probe_append (inp : StartInput) (evs : List Event) :
    has_execve (probe_events inp ++ evs) = has_execve evs := by
  unfold probe_events
  split_ifs <;> simp [has_execve, is_execve_event]

theorem has_getenv_probe_append (inp : StartInput) (evs : List Event) :
    has_getenv (probe_events inp ++ evs) = has_getenv evs := by
  unfold probe_events
  split_ifs <;> simp [has_getenv, is_getenv_event]

theorem reports_of_mem_writev {marker body : List Char} {fd : Nat} {evs : List Event}
    (hmem : Event.writev fd body ∈ evs) (hinf : marker <:+: body) :
    reports marker evs = true := by
  unfold reports
  rw [List.any_eq_true]
  refine ⟨body, ?_, by simpa using hinf⟩
  unfold writev_bodies
  rw [List.mem_filterMap]
  exact ⟨Event.writev fd body, hmem, rfl⟩

theorem infix_of_parts (pre marker post : List Char) :
    marker <:+: (pre ++ marker ++ post) := ⟨pre, post, rfl⟩

/-! ## Stack decoding lemmas -/

theorem scan_ptrs_append (env rest : List Nat) (h : ∀ p ∈ env, p ≠ 0) :
    scan_ptrs (env ++ 0 :: rest) = some (env, rest) := by
  induction env with
  | nil => simp [scan_ptrs]
  | cons p ps ih =>
    have hp : p ≠ 0 := h p (List.mem_cons_self p ps)
    simp [scan_ptrs, hp, ih (fun q hq => h q (List.mem_cons_of_mem p hq))]

theorem scan_auxv_pairs_append (aux : List (Nat × Nat)) (tail : List Nat)
    (h : ∀ p ∈ aux, p.1 ≠ AT_NULL) :
    scan_auxv_pairs (aux.flatMap (fun p => [p.1, p.2]) ++ AT_NULL :: 0 :: tail) =
      some (aux, tail) := by
  induction aux with
  | nil => simp [scan_auxv_pairs]
  | cons p ps ih =>
    have hp : p.1 ≠ AT_NULL := h p (List.mem_cons_self p ps)
    have ih2 := ih (fun q hq => h q (List.mem_cons_of_mem p hq))
    rw [List.flatMap_cons]
    simp only [List.append_assoc, List.cons_append, List.nil_append]
    simp [scan_auxv_pairs, hp, ih2]

/-- Decoding a well-formed stack block recovers argc, the argument pointers,
the environment pointers and the auxiliary entries exactly. -/
theorem decode_encode (args env : List Nat) (aux : List (Nat × Nat)) (tail : List Nat)
    (henv : ∀ p ∈ env, p ≠ 0) (haux : ∀ p ∈ aux, p.1 ≠ AT_NULL) :
    decode_stack (encode_stack args env aux tail) = some (args.length, args, env, aux) := by
  have hdrop :
      (args ++ 0 :: (env ++ 0 :: (aux.flatMap (fun p => [p.1, p.2]) ++ AT_NULL :: 0 :: tail))).drop
          (args.length + 1) =
        env ++ 0 :: (aux.flatMap (fun p => [p.1, p.2]) ++ AT_NULL :: 0 :: tail) := by
    have : args ++ 0 :: (env ++ 0 :: (aux.flatMap (fun p => [p.1, p.2]) ++ AT_NULL :: 0 :: tail)) =
        (args ++ [0]) ++ (env ++ 0 :: (aux.flatMap (fun p => [p.1, p.2]) ++ AT_NULL :: 0 :: tail)) := by
      simp
    rw [this, List.drop_left' (by simp)]
  have htake :
      (args ++ 0 :: (env ++ 0 :: (aux.flatMap (fun p => [p.1, p.2]) ++ AT_NULL :: 0 :: tail))).take
          args.length = args :=
    List.take_left' rfl
  simp only [encode_stack, decode_stack, hdrop, htake, scan_ptrs_append env _ henv,
    scan_auxv_pairs_append aux tail haux]

theorem probe_events_no_exit (inp : StartInput) (s : Nat) :
    Event.exitGroup s ∉ probe_events inp := by
  unfold probe_events
  split_ifs <;> simp

theorem writev_bodies_append (a b : List Event) :
    writev_bodies (a ++ b) = writev_bodies a ++ writev_bodies b := by
  unfold writev_bodies
  exact List.filterMap_append a b _

theorem writev_bodies_probe (inp : StartInput) : writev_bodies (probe_events inp) = [] := by
  unfold probe_events
  split_ifs <;> simp [writev_bodies]

/-! ## Claim theorems -/

/-- C2: for every decoded stack with at least one argument, loader path,
platform string and resolved executable path, the constructed argument
vector is exactly the loader path, the platform, the executable name, the
original arguments from index 1 on, then the null terminator - original
argv[0] dropped, nothing else dropped or reordered - and its total length
is argc + 3 entries counting the terminator. -/
theorem C2_new_argv_exact (loader platform execfn a : List Char) (rest : List (List Char)) :
    build_new_argv loader platform (some execfn) (a :: rest) =
      [some loader, some platform, some execfn] ++ rest.map some ++ [none] ∧
    (build_new_argv loader platform (some execfn) (a :: rest)).length =
      (a :: rest).length + 3 := by
  constructor <;> simp [build_new_argv]

/-- C3: the renderer is correct on 0 and 42, but on the minimum signed
32-bit value the C negation overflows and the digit lookup reads out of
bounds, so the most negative value is not rendered correctly - the code
contradicts its own comment that the buffer need only be big enough to
hold that value in decimal. -/
theorem C3_renderer_int_min_bug :
    iov_int_string (-2147483648) = none ∧
    iov_int_string 0 = some ['0'] ∧
    iov_int_string 42 = some ['4', '2'] :=
  ⟨iov_int_string_min, iov_int_string_zero, iov_int_string_42⟩

/-- C5: the resolved executable name prefers the last-seen nonzero
originating-file-path auxiliary value, then the successful readlink of the
self link (truncated to PATH_MAX), then argv[0] (the head of the argument
vector). -/
theorem C5_execfn_preference (inp : StartInput) :
    (∀ p, last_aux_val AT_EXECFN inp.auxv = some p → p ≠ 0 →
      resolve_execfn (scan_auxv inp.auxv) inp = some (inp.mem p)) ∧
    (last_aux_val AT_EXECFN inp.auxv = none →
      (∀ t, inp.readlinkTarget = some t →
        resolve_execfn (scan_auxv inp.auxv) inp = some (t.take PATH_MAX)) ∧
      (inp.readlinkTarget = none →
        resolve_execfn (scan_auxv inp.auxv) inp = inp.argv.head?)) := by
  refine ⟨?_, ?_⟩
  · intro p hp hp0
    unfold resolve_execfn
    rw [scan_auxv_execfn, hp]
    simp [hp0]
  · intro habs
    constructor
    · intro t ht
      unfold resolve_execfn
      rw [scan_auxv_execfn, habs]
      simp [ht]
    · intro ht
      unfold resolve_execfn
      rw [scan_auxv_execfn, habs]
      simp [ht]

/-- C6: when the auxiliary vector has no platform tag the resolved platform
is the compiled-in architecture default, which is never empty and is one of
the four fixed architecture names. -/
theorem C6_platform_default (arch : Arch) (inp : StartInput)
    (h : last_aux_val AT_PLATFORM inp.auxv = none) :
    resolve_platform arch (scan_auxv inp.auxv) inp = default_platform arch ∧
    default_platform arch ≠ [] ∧
    default_platform arch ∈
      ["x86_64".toList, "i386".toList, "arm".toList, "mips".toList] := by
  refine ⟨?_, ?_, ?_⟩
  · unfold resolve_platform
    rw [scan_auxv_platform, h]
    simp
  · cases arch <;> simp [default_platform]
  · cases arch <;> simp [default_platform]

/-- C6 witness at a concrete input with an auxiliary vector that has no
platform tag. -/
theorem C6_platform_default_witness :
    resolve_platform Arch.x86_64 (scan_auxv [(23, 0)])
        (StartInput.mk [] [] [(23, 0)] (fun _ => []) none none) =
      default_platform Arch.x86_64 ∧
    default_platform Arch.x86_64 ≠ [] ∧
    default_platform Arch.x86_64 ∈
      ["x86_64".toList, "i386".toList, "arm".toList, "mips".toList] :=
  C6_platform_default Arch.x86_64
    (StartInput.mk [] [] [(23, 0)] (fun _ => []) none none) (by decide)

/-- C8: decoding a well-formed initial stack block with leading count N
recovers argc = N, exactly the N argument pointers, the environment
pointers up to their first null sentinel, and the auxiliary entries up to
the first AT_NULL-tagged entry. -/
theorem C8_stack_decoder (args env : List Nat) (aux : List (Nat × Nat)) (tail : List Nat)
    (henv : ∀ p ∈ env, p ≠ 0) (haux : ∀ p ∈ aux, p.1 ≠ AT_NULL) :
    decode_stack (encode_stack args env aux tail) = some (args.length, args, env, aux) :=
  decode_encode args env aux tail henv haux

/-- C8 witness on a concrete well-formed stack block. -/
theorem C8_stack_decoder_witness :
    decode_stack (encode_stack [5, 6] [7] [(31, 9)] [42]) = some (2, [5, 6], [7], [(31, 9)]) :=
  C8_stack_decoder [5, 6] [7] [(31, 9)] [42] (by decide) (by decide)

/-- C10: when the auxiliary vector has no originating-path tag and the
readlink of the self link succeeds, the resolved name is the link target
truncated to at most PATH_MAX characters (the call reserves one byte of
the PATH_MAX + 1 buffer for the terminator the code writes). -/
theorem C10_readlink_truncation (inp : StartInput) (t : List Char)
    (habs : last_aux_val AT_EXECFN inp.auxv = none)
    (hrl : inp.readlinkTarget = some t) :
    ∃ s, resolve_execfn (scan_auxv inp.auxv) inp = some s ∧
      s = t.take PATH_MAX ∧ s.length ≤ PATH_MAX := by
  refine ⟨t.take PATH_MAX, ?_, rfl, ?_⟩
  · unfold resolve_execfn
    rw [scan_auxv_execfn, habs]
    simp [hrl]
  · simp [List.length_take]

/-- C10 witness: a link target longer than PATH_MAX is silently truncated
to PATH_MAX characters. -/
theorem C10_readlink_truncation_witness :
    ∃ s, resolve_execfn (scan_auxv [])
        (StartInput.mk [] [] [] (fun _ => []) (some (List.replicate 5000 'a')) none) = some s ∧
      s = (List.replicate 5000 'a').take PATH_MAX ∧ s.length ≤ PATH_MAX :=
  C10_readlink_truncation
    (StartInput.mk [] [] [] (fun _ => []) (some (List.replicate 5000 'a')) none)
    (List.replicate 5000 'a') (by decide) rfl

/-- C1: the secure flag is true unless the auxiliary vector contains a
secure-exec tag whose last-seen value is zero, and whenever it is true the
run produces no execve call, reports the refusing-secure-exec diagnostic
and exits with status 2. -/
theorem C1_secure_default_and_refusal (arch : Arch) (inp : StartInput) :
    ((scan_auxv inp.auxv).secure = true ↔ last_aux_val AT_SECURE inp.auxv ≠ some 0) ∧
    ((scan_auxv inp.auxv).secure = true →
      ∃ evs, do_start arch inp = some evs ∧ has_execve evs = false ∧
        reports secure_fail_msg evs = true ∧ Event.exitGroup 2 ∈ evs) := by
  constructor
  · rw [scan_auxv_secure]
    cases h : last_aux_val AT_SECURE inp.auxv with
    | none => simp
    | some v =>
      by_cases hv : v = 0
      · subst hv
        simp
      · simp [hv, Ne.symm hv]
  · intro h
    rw [do_start_secure arch inp h]
    refine ⟨_, rfl, ?_, ?_, ?_⟩
    · rw [has_execve_probe_append]
      simp [has_execve, is_execve_event]
    · have hmem : Event.writev 2 ("nacl_interp: ".toList ++ secure_fail_msg ++
          (resolve_execfn (scan_auxv inp.auxv) inp).getD [] ++ ['\n']) ∈
          probe_events inp ++
            [Event.writev 2 ("nacl_interp: ".toList ++ secure_fail_msg ++
              (resolve_execfn (scan_auxv inp.auxv) inp).getD [] ++ ['\n']),
             Event.exitGroup 2] := List.mem_append_right _ (by simp)
      have hinf : secure_fail_msg <:+: ("nacl_interp: ".toList ++ secure_fail_msg ++
          (resolve_execfn (scan_auxv inp.auxv) inp).getD [] ++ ['\n']) := by
        refine ⟨"nacl_interp: ".toList,
          (resolve_execfn (scan_auxv inp.auxv) inp).getD [] ++ ['\n'], ?_⟩
        simp
      exact reports_of_mem_writev hmem hinf
    · simp

/-- C1 witness: with an empty auxiliary vector the secure flag defaults to
true and the run is refused. -/
theorem C1_secure_default_and_refusal_witness :
    ∃ evs, do_start Arch.x86_64 (StartInput.mk [['p']] [] [] (fun _ => []) none none) =
        some evs ∧
      has_execve evs = false ∧ reports secure_fail_msg evs = true ∧
      Event.exitGroup 2 ∈ evs :=
  (C1_secure_default_and_refusal Arch.x86_64
    (StartInput.mk [['p']] [] [] (fun _ => []) none none)).2 (by decide)

/-- C9: under a secure exec the trace contains no environment lookup, and
the whole behaviour of the run is unchanged by replacing the environment
vector. -/
theorem C9_env_not_consulted_when_secure (arch : Arch) (inp : StartInput)
    (h : (scan_auxv inp.auxv).secure = true) :
    (∀ evs, do_start arch inp = some evs → has_getenv evs = false) ∧
    (∀ envp2, do_start arch
        (StartInput.mk inp.argv envp2 inp.auxv inp.mem inp.readlinkTarget inp.execFailsWith) =
      do_start arch inp) := by
  constructor
  · intro evs hevs
    rw [do_start_secure arch inp h] at hevs
    cases hevs
    rw [has_getenv_probe_append]
    simp [has_getenv, is_getenv_event]
  · intro envp2
    rw [do_start_secure arch inp h,
      do_start_secure arch
        (StartInput.mk inp.argv envp2 inp.auxv inp.mem inp.readlinkTarget inp.execFailsWith) h]
    rfl

/-- C9 witness at a concrete secure input: no environment lookup occurs and
two different environments give the same trace. -/
theorem C9_env_not_consulted_when_secure_witness :
    (∀ evs, do_start Arch.x86_64 (StartInput.mk [['p']] [['X']] [] (fun _ => []) none none) =
        some evs → has_getenv evs = false) ∧
    (∀ envp2, do_start Arch.x86_64
        (StartInput.mk [['p']] envp2 [] (fun _ => []) none none) =
      do_start Arch.x86_64 (StartInput.mk [['p']] [['X']] [] (fun _ => []) none none)) :=
  C9_env_not_consulted_when_secure Arch.x86_64
    (StartInput.mk [['p']] [['X']] [] (fun _ => []) none none) (by decide)

/-- Concrete input refuting C4 as stated: the environment has no loader
entry, but the auxiliary vector is empty, so the secure flag defaults to
true and the run reports the secure-exec refusal, not the missing-loader
diagnostic. -/
def c4_input : StartInput := StartInput.mk [['p']] [] [] (fun _ => []) none none

/-- C4 counterexample: an input whose environment lacks the loader variable
on which the program does not report the missing-loader diagnostic (it
reports the secure-exec refusal instead), contradicting the claim that the
missing-loader diagnostic is reported regardless of the auxiliary-vector
contents. -/
theorem C4_counterexample :
    my_getenv ENVAR c4_input.envp = none ∧
    ∃ evs, do_start Arch.x86_64 c4_input = some evs ∧
      reports missing_env_fail_msg evs = false ∧
      reports secure_fail_msg evs = true ∧ has_execve evs = false := by
  refine ⟨rfl, [Event.readlink ("/proc/self/exe".toList) PATH_MAX,
    Event.writev 2 ("nacl_interp: ".toList ++ secure_fail_msg ++ ['p'] ++ ['\n']),
    Event.exitGroup 2], by decide, by decide, by decide, by decide⟩

/-- C4 amended: when no environment entry has the loader variable's exact
name, the run never invokes process replacement; and when additionally the
secure-exec check passes (the last-seen secure tag value is zero), the run
reports the missing-loader diagnostic and exits with status 2. -/
theorem C4_missing_loader (arch : Arch) (inp : StartInput)
    (hnone : ∀ e ∈ inp.envp, ∀ v, e ≠ ENVAR ++ '=' :: v) :
    (∀ evs, do_start arch inp = some evs → has_execve evs = false) ∧
    ((scan_auxv inp.auxv).secure = false →
      ∃ evs, do_start arch inp = some evs ∧
        reports missing_env_fail_msg evs = true ∧ Event.exitGroup 2 ∈ evs) := by
  have hm : my_getenv ENVAR inp.envp = none := (my_getenv_eq_none_iff ENVAR inp.envp).mpr hnone
  constructor
  · intro evs hevs
    cases hsec : (scan_auxv inp.auxv).secure with
    | true =>
      rw [do_start_secure arch inp hsec] at hevs
      cases hevs
      rw [has_execve_probe_append]
      simp [has_execve, is_execve_event]
    | false =>
      rw [do_start_missing arch inp hsec hm] at hevs
      cases hevs
      rw [has_execve_probe_append]
      simp [has_execve, is_execve_event]
  · intro hsec
    rw [do_start_missing arch inp hsec hm]
    refine ⟨_, rfl, ?_, ?_⟩
    · have hmem : Event.writev 2 ("nacl_interp: ".toList ++ missing_env_fail_msg ++ ['\n']) ∈
          probe_events inp ++
            [Event.getenv ENVAR,
             Event.writev 2 ("nacl_interp: ".toList ++ missing_env_fail_msg ++ ['\n']),
             Event.exitGroup 2] := List.mem_append_right _ (by simp)
      have hinf : missing_env_fail_msg <:+:
          ("nacl_interp: ".toList ++ missing_env_fail_msg ++ ['\n']) := by
        refine ⟨"nacl_interp: ".toList, ['\n'], ?_⟩
        simp
      exact reports_of_mem_writev hmem hinf
    · simp

/-- C4 witness for the amended claim: with no loader entry and a secure tag
value of zero the run reports the missing-loader diagnostic. -/
theorem C4_missing_loader_witness :
    (∀ evs, do_start Arch.x86_64
        (StartInput.mk [['p']] [] [(23, 0)] (fun _ => []) none none) = some evs →
      has_execve evs = false) ∧
    ∃ evs, do_start Arch.x86_64
        (StartInput.mk [['p']] [] [(23, 0)] (fun _ => []) none none) = some evs ∧
      reports missing_env_fail_msg evs = true ∧ Event.exitGroup 2 ∈ evs := by
  have h := C4_missing_loader Arch.x86_64
    (StartInput.mk [['p']] [] [(23, 0)] (fun _ => []) none none) (by simp)
  exact ⟨h.1, h.2 (by decide)⟩

/-- C5 witness: with no originating-path tag and a failing readlink the
resolved name is argv[0]. -/
theorem C5_execfn_preference_witness :
    resolve_execfn (scan_auxv [])
      (StartInput.mk [['a']] [] [] (fun _ => []) none none) = some ['a'] :=
  ((C5_execfn_preference (StartInput.mk [['a']] [] [] (fun _ => []) none none)).2
    (by decide)).2 rfl

/-- C7: every run whose execve errno is above the minimum int ends either in
a successful execve or in a fatal path whose trace performs exactly one
writev - of a diagnostic starting with the fixed prefix and ending in a
newline - followed by exit status 2, the same fixed nonzero status
everywhere; moreover fail always produces that single writev and exit pair,
with the optional colon-separated item rendered with a decimal number. -/
theorem C7_fatal_diagnostics (arch : Arch) (inp : StartInput)
    (herr : ∀ e, inp.execFailsWith = some e → -(2 ^ 31) < e) :
    (∃ evs, do_start arch inp = some evs ∧
      (2 : Nat) ≠ 0 ∧
      (∀ s, Event.exitGroup s ∈ evs → s = 2) ∧
      ((∃ s, Event.exitGroup s ∈ evs) →
        ∃ pre body, evs = pre ++ [Event.writev 2 body, Event.exitGroup 2] ∧
          writev_bodies pre = [] ∧
          ∃ mid, body = "nacl_interp: ".toList ++ mid ++ ['\n'])) ∧
    (∀ m f v, fail m f none v =
      some [Event.writev 2 ("nacl_interp: ".toList ++ m ++ f.getD [] ++ ['\n']),
            Event.exitGroup 2]) ∧
    (∀ m f i v, -(2 ^ 31) < v → ∃ num, iov_int_string v = some num ∧ num ≠ [] ∧
      (∀ c ∈ num, c.isDigit = true ∨ c = '-') ∧
      fail m f (some i) v =
        some [Event.writev 2 ("nacl_interp: ".toList ++ m ++ f.getD [] ++
          ": ".toList ++ i ++ ['='] ++ num ++ ['\n']), Event.exitGroup 2]) := by
  refine ⟨?_, ?_, ?_⟩
  · cases hsec : (scan_auxv inp.auxv).secure with
    | true =>
      rw [do_start_secure arch inp hsec]
      refine ⟨_, rfl, by decide, ?_, ?_⟩
      · intro s hs
        rcases List.mem_append.mp hs with h | h
        · exact absurd h (probe_events_no_exit inp s)
        · simpa using h
      · intro _
        refine ⟨probe_events inp, _, rfl, writev_bodies_probe inp, ?_⟩
        exact ⟨secure_fail_msg ++ (resolve_execfn (scan_auxv inp.auxv) inp).getD [], by simp⟩
    | false =>
      cases hm : my_getenv ENVAR inp.envp with
      | none =>
        rw [do_start_missing arch inp hsec hm]
        refine ⟨_, rfl, by decide, ?_, ?_⟩
        · intro s hs
          rcases List.mem_append.mp hs with h | h
          · exact absurd h (probe_events_no_exit inp s)
          · simpa using h
        · intro _
          refine ⟨probe_events inp ++ [Event.getenv ENVAR],
            "nacl_interp: ".toList ++ missing_env_fail_msg ++ ['\n'], by simp, ?_, ?_⟩
          · rw [writev_bodies_append, writev_bodies_probe]
            simp [writev_bodies]
          · exact ⟨missing_env_fail_msg, rfl⟩
      | some loader =>
        cases hef : inp.execFailsWith with
        | none =>
          rw [do_start_exec_success arch inp loader hsec hm hef]
          refine ⟨_, rfl, by decide, ?_, ?_⟩
          · intro s hs
            rcases List.mem_append.mp hs with h | h
            · exact absurd h (probe_events_no_exit inp s)
            · simp at h
          · rintro ⟨s, hs⟩
            rcases List.mem_append.mp hs with h | h
            · exact absurd h (probe_events_no_exit inp s)
            · simp at h
        | some e =>
          obtain ⟨num, hnum, hnume, hchar⟩ := iov_int_string_of_gt_min e (herr e hef)
          rw [do_start_exec_fail arch inp loader e num hsec hm hef hnum]
          refine ⟨_, rfl, by decide, ?_, ?_⟩
          · intro s hs
            rcases List.mem_append.mp hs with h | h
            · exact absurd h (probe_events_no_exit inp s)
            · simpa using h
          · intro _
            refine ⟨probe_events inp ++
              [Event.getenv ENVAR,
               Event.execve loader
                 (build_new_argv loader (resolve_platform arch (scan_auxv inp.auxv) inp)
                   (resolve_execfn (scan_auxv inp.auxv) inp) inp.argv)
                 inp.envp],
              "nacl_interp: ".toList ++ exec_fail_msg ++ loader ++
                ": ".toList ++ "errno".toList ++ ['='] ++ num ++ ['\n'], by simp, ?_, ?_⟩
            · rw [writev_bodies_append, writev_bodies_probe]
              simp [writev_bodies]
            · exact ⟨exec_fail_msg ++ loader ++ ": ".toList ++ "errno".toList ++ ['='] ++ num,
                by simp⟩
  · intro m f v
    rfl
  · intro m f i v hv
    obtain ⟨num, hnum, hnume, hchar⟩ := iov_int_string_of_gt_min v hv
    exact ⟨num, hnum, hnume, hchar, by simp [fail, hnum]⟩

/-- C7 witness at a concrete input whose execve fails with errno 2. -/
theorem C7_fatal_diagnostics_witness :
    ∃ evs, do_start Arch.x86_64
        (StartInput.mk [['p']] [] [] (fun _ => []) none (some 2)) = some evs ∧
      (2 : Nat) ≠ 0 ∧
      (∀ s, Event.exitGroup s ∈ evs → s = 2) ∧
      ((∃ s, Event.exitGroup s ∈ evs) →
        ∃ pre body, evs = pre ++ [Event.writev 2 body, Event.exitGroup 2] ∧
          writev_bodies pre = [] ∧
          ∃ mid, body = "nacl_interp: ".toList ++ mid ++ ['\n']) :=
  (C7_fatal_diagnostics Arch.x86_64
    (StartInput.mk [['p']] [] [] (fun _ => []) none (some 2))
    (by intro e he; simp at he; omega)).1

end NaClInterp
